import Mathlib

/-!
Verification of the temporary document lifecycle manager of the flipbook
server (src/server/src/index.js): the in-memory document registry backed
by on-disk files, per-document eviction timers, and the HTTP handlers for
upload, retrieval and explicit release.

The JavaScript source is embedded shallowly:

* the `documents` `Map` becomes an association list with the `Map.get`,
  `Map.set` (replace-on-duplicate) and `Map.delete` semantics of JS maps;
* the filesystem becomes a list of present paths plus a list of paths on
  which operations fail with a non-ENOENT error (`troubled`), so that
  `fsPromises.unlink` can succeed, fail with ENOENT, or fail otherwise;
* `setTimeout` / `clearTimeout` become a list of pending timer records
  (handle, captured document id, captured file path); firing a timer runs
  the eviction callback of `registerDocument` exactly when the handle is
  still pending;
* JS numbers used for configuration and timestamps become `Rat`.
-/

set_option autoImplicit false

namespace DocStore

/-- Result of a `fsPromises.unlink` call: success, failure with code
ENOENT (file absent), or any other failure. -/
inductive UnlinkResult where
  | ok
  | enoent
  | other
deriving DecidableEq

/-- The filesystem as seen by the server: the set of present file paths,
and the paths whose operations fail with a non-ENOENT error (for example
a permission error on a present file). -/
structure FS where
  files : List String
  troubled : List String
deriving DecidableEq

/-- Embeds `fsPromises.unlink(p)`: deleting an absent file fails with
ENOENT; deleting a present but troubled file fails with some other code
and leaves the file in place; otherwise the file is removed. -/
def unlink (p : String) (fs : FS) : UnlinkResult × FS :=
  if p ∈ fs.files then
    if p ∈ fs.troubled then (.other, fs)
    else (.ok, { fs with files := fs.files.erase p })
  else (.enoent, fs)

/-- A registry entry, mirroring the object stored by `documents.set` in
`registerDocument`: path, originalName, size, mimeType, expiresAt and the
eviction timer handle. -/
structure DocEntry where
  path : String
  originalName : String
  size : Nat
  mimeType : String
  expiresAt : Rat
  timeout : Nat
deriving DecidableEq

/-- The `documents` JS `Map`, embedded as an association list from id to
entry (insertion order preserved, at most consulted via the operations
below). -/
abbrev Registry := List (String × DocEntry)

/-- `documents.get(k)`: first binding of the key, if any. -/
def mapGet : Registry → String → Option DocEntry
  | [], _ => none
  | (k0, v0) :: rest, k => if k0 = k then some v0 else mapGet rest k

/-- `documents.set(k, v)`: JS `Map.set` replaces the binding in place when
the key is already present and appends otherwise. -/
def mapSet : Registry → String → DocEntry → Registry
  | [], k, v => [(k, v)]
  | (k0, v0) :: rest, k, v =>
    if k0 = k then (k, v) :: rest else (k0, v0) :: mapSet rest k v

/-- `documents.delete(k)`: removes the binding of `k` (all of them; the
operations above never create a duplicate key in a way that makes the
difference observable through `mapGet`). -/
def mapDelete : Registry → String → Registry
  | [], _ => []
  | (k0, v0) :: rest, k =>
    if k0 = k then mapDelete rest k else (k0, v0) :: mapDelete rest k

/-- Pending `setTimeout` records: handle, the captured document id and the
captured `file.path` of the eviction closure in `registerDocument`. -/
abbrev TimerList := List (Nat × String × String)

/-- `clearTimeout(h)`: drops the pending timer with handle `h`; a no-op
when no such timer is pending (as in JS). -/
def clearTimeout : TimerList → Nat → TimerList
  | [], _ => []
  | t :: rest, h => if t.1 = h then clearTimeout rest h else t :: clearTimeout rest h

/-- Looks up the pending timer with handle `h`, returning the captured
(id, path) pair of its callback. -/
def findTimer : TimerList → Nat → Option (String × String)
  | [], _ => none
  | t :: rest, h => if t.1 = h then some t.2 else findTimer rest h

/-- The whole mutable state of the server process: the registry, the
pending eviction timers, the filesystem, the current clock value
(`Date.now()` in milliseconds) and a fresh-handle counter for
`setTimeout`. -/
structure ServerState where
  documents : Registry
  pendingTimers : TimerList
  fs : FS
  now : Rat
  nextTimer : Nat
deriving DecidableEq

/-- Server configuration after environment resolution: `uploadLimitMb`
and `documentTtlMinutes` of index.js. -/
structure Config where
  uploadLimitMb : Rat
  documentTtlMinutes : Rat
deriving DecidableEq

/-- `documentTtlMs = documentTtlMinutes * 60 * 1000`. -/
def documentTtlMs (cfg : Config) : Rat :=
  cfg.documentTtlMinutes * 60 * 1000

/-- The multer `req.file` object as used by the server: `path`,
`originalname`, `size`, `mimetype`. -/
structure FileInfo where
  path : String
  originalname : String
  size : Nat
  mimetype : String
deriving DecidableEq

/-- Embeds `registerDocument(id, file)` (index.js lines 54-79): computes
`expiresAt = Date.now() + documentTtlMs`, schedules the eviction timeout
whose closure captures `id` and `file.path`, and stores the entry with
`documents.set` (which replaces any existing binding of `id`). Returns
the new state and the returned `expiresAt`. The `timeout.unref()` call
only affects process liveness and has no counterpart in this model. -/
def registerDocument (cfg : Config) (st : ServerState) (id : String) (file : FileInfo) :
    ServerState × Rat :=
  let expiresAt := st.now + documentTtlMs cfg
  let h := st.nextTimer
  let entry : DocEntry :=
    { path := file.path, originalName := file.originalname, size := file.size,
      mimeType := file.mimetype, expiresAt := expiresAt, timeout := h }
  ({ st with
      documents := mapSet st.documents id entry,
      pendingTimers := st.pendingTimers ++ [(h, id, file.path)],
      nextTimer := h + 1 },
   expiresAt)

/-- The body of the eviction `setTimeout` callback in `registerDocument`
(index.js lines 56-63): `documents.delete(id)` followed by
`unlink(file.path)` whose rejection is caught — an ENOENT failure is
ignored silently, any other failure is only logged. The callback never
throws and never re-inserts the entry. -/
def evictionCallback (st : ServerState) (id : String) (filePath : String) : ServerState :=
  let docs := mapDelete st.documents id
  { st with documents := docs, fs := (unlink filePath st.fs).2 }

/-- Firing of a scheduled timer handle: a pending timer runs the eviction
callback with its captured id and path (and stops being pending); a
cancelled or already-fired handle does nothing. -/
def fireTimer (st : ServerState) (h : Nat) : ServerState :=
  match findTimer st.pendingTimers h with
  | none => st
  | some (id, p) =>
    evictionCallback { st with pendingTimers := clearTimeout st.pendingTimers h } id p

/-- Embeds `removeDocument(id)` (index.js lines 81-100): returns
`.ok false` when the id has no entry; otherwise clears the eviction
timeout, deletes the registry entry, and then unlinks the backing file —
an ENOENT unlink failure is swallowed and the call still returns
`.ok true`, while any other unlink failure is logged and rethrown
(`.error`) after the registry mutation already happened. -/
def removeDocument (st : ServerState) (id : String) : Except Unit Bool × ServerState :=
  match mapGet st.documents id with
  | none => (.ok false, st)
  | some entry =>
    let stCleared : ServerState :=
      { st with
          pendingTimers := clearTimeout st.pendingTimers entry.timeout,
          documents := mapDelete st.documents id }
    let u := unlink entry.path stCleared.fs
    let stAfter : ServerState := { stCleared with fs := u.2 }
    match u.1 with
    | .ok => (.ok true, stAfter)
    | .enoent => (.ok true, stAfter)
    | .other => (.error (), stAfter)

/-- An HTTP response, reduced to its status code and the error message of
its JSON body (empty for 200/201/204 responses). -/
structure Resp where
  status : Nat
  body : String
deriving DecidableEq

/-- Embeds the GET `/api/documents/:id` handler (index.js lines 141-173):
missing entry gives 404; `res.sendFile` on a present readable file gives
200 and changes nothing; an ENOENT streaming error (backing file absent)
gives 404 and proactively deletes the stale registry entry; any other
streaming error gives 500 and leaves the registry untouched. -/
def getDocument (st : ServerState) (id : String) : Resp × ServerState :=
  match mapGet st.documents id with
  | none => ({ status := 404, body := "Document not found or has expired." }, st)
  | some entry =>
    if entry.path ∈ st.fs.files then
      if entry.path ∈ st.fs.troubled then
        ({ status := 500, body := "Unable to retrieve document." }, st)
      else
        ({ status := 200, body := "" }, st)
    else
      ({ status := 404, body := "Document not found or has expired." },
       { st with documents := mapDelete st.documents id })

/-- Embeds the DELETE `/api/documents/:id` handler (index.js lines
175-186): 404 when `removeDocument` returns false, 204 when it returns
true, 500 when it throws. -/
def deleteHandler (st : ServerState) (id : String) : Resp × ServerState :=
  match removeDocument st id with
  | (.ok true, st1) => ({ status := 204, body := "" }, st1)
  | (.ok false, st1) => ({ status := 404, body := "Document not found or already removed." }, st1)
  | (.error _, st1) => ({ status := 500, body := "Unable to delete document." }, st1)

/-- A POST `/api/upload` request as the handler sees it after multer ran:
the optional `req.file` and the optional `req.generatedDocumentId` set by
the diskStorage filename callback. -/
structure UploadRequest where
  file : Option FileInfo
  generatedDocumentId : Option String
deriving DecidableEq

/-- Embeds the POST `/api/upload` handler body (index.js lines 109-128):
no file gives 400 with no state change; a non-PDF mimetype gives 400
after a best-effort unlink of the written file; otherwise the document is
registered under `req.generatedDocumentId ?? randomUUID()` (the fresh
UUID fallback is passed in as `fallbackId`) and the handler answers 201. -/
def uploadHandler (cfg : Config) (st : ServerState) (req : UploadRequest)
    (fallbackId : String) : Resp × ServerState :=
  match req.file with
  | none => ({ status := 400, body := "No file uploaded" }, st)
  | some f =>
    if f.mimetype = "application/pdf" then
      let id := req.generatedDocumentId.getD fallbackId
      let r := registerDocument cfg st id f
      ({ status := 201, body := "" }, r.1)
    else
      ({ status := 400, body := "Only PDF files are supported." },
       { st with fs := (unlink f.path st.fs).2 })

/-- A JS number as relevant to configuration parsing: NaN, the two
infinities, or a finite value (embedded as `Rat`). `Number(envString)`
yields NaN exactly on non-numeric input. -/
inductive JSNum where
  | nan
  | posInf
  | negInf
  | finite (q : Rat)
deriving DecidableEq

/-- Embeds the config resolution of index.js lines 13-18 for one
variable: `raw` is `Number(process.env.X)` when the variable is set
(`none` when unset, where the code computes `Number(default)`), and the
resolved value is `Number.isFinite(n) && n > 0 ? n : default`. -/
def resolveConfigValue (raw : Option JSNum) (defaultValue : Rat) : Rat :=
  match raw.getD (.finite defaultValue) with
  | .finite q => if 0 < q then q else defaultValue
  | _ => defaultValue

/-- `uploadLimitMb` from the `UPLOAD_LIMIT_MB` environment variable,
default 25. -/
def uploadLimitMbOf (raw : Option JSNum) : Rat :=
  resolveConfigValue raw 25

/-- `documentTtlMinutes` from the `DOCUMENT_TTL_MINUTES` environment
variable, default 30. -/
def documentTtlMinutesOf (raw : Option JSNum) : Rat :=
  resolveConfigValue raw 30

/-- The final path component as Node `path.posix` sees it inside
`extname`: trailing slashes are skipped, then characters are taken up to
the previous slash. -/
def posixBasename (s : String) : List Char :=
  ((s.data.reverse.dropWhile (fun c => c == '/')).takeWhile (fun c => !(c == '/'))).reverse

/-- Embeds Node `path.extname` (posix): the suffix of the basename from
its last dot, except that a dot-less basename, a basename whose only last
dot is its first character (hidden files like ".bashrc"), and the
basename ".." all yield the empty string. -/
def extname (s : String) : String :=
  let b := posixBasename s
  let rb := b.reverse
  let after := rb.takeWhile (fun c => !(c == '.'))
  match rb.dropWhile (fun c => !(c == '.')) with
  | [] => ""
  | _ :: pre =>
    if pre = [] then ""
    else if b = ['.', '.'] then ""
    else ⟨'.' :: after.reverse⟩

/-- ASCII lowering of one character, as `String.prototype.toLowerCase`
acts on the ASCII range. -/
def lowerChar : Char → Char
  | 'A' => 'a'
  | 'B' => 'b'
  | 'C' => 'c'
  | 'D' => 'd'
  | 'E' => 'e'
  | 'F' => 'f'
  | 'G' => 'g'
  | 'H' => 'h'
  | 'I' => 'i'
  | 'J' => 'j'
  | 'K' => 'k'
  | 'L' => 'l'
  | 'M' => 'm'
  | 'N' => 'n'
  | 'O' => 'o'
  | 'P' => 'p'
  | 'Q' => 'q'
  | 'R' => 'r'
  | 'S' => 's'
  | 'T' => 't'
  | 'U' => 'u'
  | 'V' => 'v'
  | 'W' => 'w'
  | 'X' => 'x'
  | 'Y' => 'y'
  | 'Z' => 'z'
  | c => c

/-- `String.prototype.toLowerCase`, restricted to its ASCII action. -/
def jsToLowerCase (s : String) : String :=
  ⟨s.data.map lowerChar⟩

/-- The extension chosen by the multer diskStorage filename callback
(index.js line 38): `path.extname(file.originalname).toLowerCase() ||
".pdf"` — the empty string being falsy in JS. -/
def uploadExt (originalname : String) : String :=
  let e := jsToLowerCase (extname originalname)
  if e = "" then ".pdf" else e

/-- The storage filename chosen by the multer diskStorage filename
callback (index.js line 39) for a freshly generated id. -/
def uploadFilename (id : String) (originalname : String) : String :=
  id ++ uploadExt originalname

/-- The 26 lowercase ASCII letters, the possible proper images of
`lowerChar`. -/
def lowercaseAscii : List Char :=
  ['a', 'b', 'c', 'd', 'e', 'f', 'g', 'h', 'i', 'j', 'k', 'l', 'm',
   'n', 'o', 'p', 'q', 'r', 's', 't', 'u', 'v', 'w', 'x', 'y', 'z']

/-- A concrete registry entry, registered at time 0 with the default 30
minute TTL, used by concrete instantiations below. -/
def sampleEntry : DocEntry :=
  { path := "uploads/aaaa.pdf", originalName := "report.pdf", size := 10,
    mimeType := "application/pdf", expiresAt := 1800000, timeout := 0 }

/-- A concrete server state holding the single document "a" backed by
`sampleEntry`, over the given filesystem contents. -/
def sampleState (files troubled : List String) : ServerState :=
  { documents := [("a", sampleEntry)],
    pendingTimers := [(0, "a", "uploads/aaaa.pdf")],
    fs := { files := files, troubled := troubled },
    now := 0,
    nextTimer := 1 }

/-- A concrete accepted upload. -/
def sampleFile : FileInfo :=
  { path := "uploads/bbbb.pdf", originalname := "two.pdf", size := 7,
    mimetype := "application/pdf" }

/-- The default configuration (25 MB, 30 minutes). -/
def sampleConfig : Config :=
  { uploadLimitMb := 25, documentTtlMinutes := 30 }

/-! Helper lemmas about the registry map, the timer list, and the
filename machinery. -/

theorem mapGet_mapSet_self (m : Registry) (k : String) (v : DocEntry) :
    mapGet (mapSet m k v) k = some v := by
  induction m with
  | nil => simp [mapSet, mapGet]
  | cons hd tl ih =>
    obtain ⟨k0, v0⟩ := hd
    by_cases h : k0 = k <;> simp [mapSet, mapGet, h, ih]

theorem mapGet_mapSet_ne (m : Registry) (k j : String) (v : DocEntry) (hne : ¬ j = k) :
    mapGet (mapSet m k v) j = mapGet m j := by
  have hkj : ¬ k = j := fun hh => hne hh.symm
  induction m with
  | nil => simp [mapSet, mapGet, hkj]
  | cons hd tl ih =>
    obtain ⟨k0, v0⟩ := hd
    by_cases h : k0 = k
    · subst h
      simp [mapSet, mapGet, hkj]
    · simp [mapSet, mapGet, h, ih]

theorem mapGet_mapDelete_self (m : Registry) (k : String) :
    mapGet (mapDelete m k) k = none := by
  induction m with
  | nil => simp [mapDelete, mapGet]
  | cons hd tl ih =>
    obtain ⟨k0, v0⟩ := hd
    by_cases h : k0 = k <;> simp [mapDelete, mapGet, h, ih]

theorem mapGet_mapDelete_ne (m : Registry) (k j : String) (hne : ¬ j = k) :
    mapGet (mapDelete m k) j = mapGet m j := by
  induction m with
  | nil => simp [mapDelete, mapGet]
  | cons hd tl ih =>
    obtain ⟨k0, v0⟩ := hd
    by_cases h : k0 = k
    · subst h
      have hk0j : ¬ k0 = j := fun hh => hne hh.symm
      simp [mapDelete, mapGet, hk0j, ih]
    · simp [mapDelete, mapGet, h, ih]

theorem keys_mapSet (m : Registry) (k : String) (v : DocEntry) :
    (mapSet m k v).map Prod.fst =
      if k ∈ m.map Prod.fst then m.map Prod.fst else m.map Prod.fst ++ [k] := by
  induction m with
  | nil => simp [mapSet]
  | cons hd tl ih =>
    obtain ⟨k0, v0⟩ := hd
    by_cases h : k0 = k
    · subst h
      simp [mapSet]
    · have hne : ¬ k = k0 := fun hk => h hk.symm
      by_cases hmem : k ∈ tl.map Prod.fst <;>
        simp [mapSet, h, hne, hmem, ih]

theorem nodup_keys_mapSet {m : Registry} (k : String) (v : DocEntry)
    (h : (m.map Prod.fst).Nodup) : ((mapSet m k v).map Prod.fst).Nodup := by
  rw [keys_mapSet]
  by_cases hmem : k ∈ m.map Prod.fst
  · simpa [hmem] using h
  · simp only [hmem, if_false]
    refine List.Nodup.append h (List.nodup_singleton k) ?_
    intro a ha hak
    rw [List.mem_singleton] at hak
    exact hmem (hak ▸ ha)

theorem findTimer_clearTimeout (l : TimerList) (h : Nat) :
    findTimer (clearTimeout l h) h = none := by
  induction l with
  | nil => rfl
  | cons t rest ih =>
    by_cases ht : t.1 = h <;> simp [clearTimeout, findTimer, ht, ih]

theorem mem_posixBasename_ne_slash {s : String} {c : Char}
    (h : c ∈ posixBasename s) : ¬ c = '/' := by
  unfold posixBasename at h
  rw [List.mem_reverse] at h
  have hp := List.mem_takeWhile_imp h
  simpa using hp

theorem lowerChar_eq_or_mem (c : Char) :
    lowerChar c = c ∨ lowerChar c ∈ lowercaseAscii := by
  unfold lowerChar
  split
  all_goals first
    | (right; decide)
    | (left; rfl)

theorem lowerChar_ne_slash {c : Char} (h : ¬ c = '/') : ¬ lowerChar c = '/' := by
  rcases lowerChar_eq_or_mem c with h1 | h1
  · rw [h1]; exact h
  · intro hc
    rw [hc] at h1
    exact absurd h1 (by decide)

theorem lowerChar_ne_dot {c : Char} (h : ¬ c = '.') : ¬ lowerChar c = '.' := by
  rcases lowerChar_eq_or_mem c with h1 | h1
  · rw [h1]; exact h
  · intro hc
    rw [hc] at h1
    exact absurd h1 (by decide)

theorem extname_spec (s : String) :
    extname s = "" ∨
    ((extname s).data.head? = some '.' ∧
     (∀ c ∈ (extname s).data, ¬ c = '/') ∧
     (∀ c ∈ (extname s).data.tail, ¬ c = '.')) := by
  have hb : ∀ c ∈ posixBasename s, ¬ c = '/' := fun c hc => mem_posixBasename_ne_slash hc
  simp only [extname]
  cases hdrop : (posixBasename s).reverse.dropWhile (fun c => !(c == '.')) with
  | nil => left; rfl
  | cons x pre =>
    by_cases hpre : pre = []
    · left; simp [hpre]
    · by_cases hdd : posixBasename s = ['.', '.']
      · left; simp [hpre, hdd]
      · right
        simp only [hpre, hdd, if_false]
        refine ⟨rfl, ?_, ?_⟩
        · intro c hc
          rcases List.mem_cons.mp hc with hc | hc
          · subst hc; decide
          · rw [List.mem_reverse] at hc
            have hc2 := List.takeWhile_subset _ hc
            rw [List.mem_reverse] at hc2
            exact hb c hc2
        · intro c hc
          have hc3 : c ∈ ((posixBasename s).reverse.takeWhile (fun c => !(c == '.'))) := by
            simpa using hc
          have hp := List.mem_takeWhile_imp hc3
          simpa using hp

theorem uploadExt_spec (n : String) :
    (uploadExt n).data.head? = some '.' ∧
    (∀ c ∈ (uploadExt n).data, ¬ c = '/') ∧
    (∀ c ∈ (uploadExt n).data.tail, ¬ c = '.') := by
  simp only [uploadExt]
  by_cases hif : jsToLowerCase (extname n) = ""
  · rw [if_pos hif]
    decide
  · rw [if_neg hif]
    rcases extname_spec n with h | ⟨h1, h2, h3⟩
    · rw [h] at hif
      exact absurd rfl hif
    · refine ⟨?_, ?_, ?_⟩
      · show (List.map lowerChar (extname n).data).head? = some '.'
        cases hd : (extname n).data with
        | nil => rw [hd] at h1; exact absurd h1 (by decide)
        | cons c t =>
          rw [hd] at h1
          have hc : c = '.' := by simpa using h1
          subst hc
          simp only [List.map_cons, List.head?_cons]
          decide
      · intro a ha
        have ha2 : a ∈ List.map lowerChar (extname n).data := ha
        rcases List.mem_map.mp ha2 with ⟨a0, ha0, rfl⟩
        exact lowerChar_ne_slash (h2 a0 ha0)
      · intro a ha
        have ha2 : a ∈ (List.map lowerChar (extname n).data).tail := ha
        cases hd : (extname n).data with
        | nil => rw [hd] at h1; exact absurd h1 (by decide)
        | cons c t =>
          rw [hd, List.map_cons, List.tail_cons] at ha2
          rcases List.mem_map.mp ha2 with ⟨a0, ha0, rfl⟩
          refine lowerChar_ne_dot (h3 a0 ?_)
          rw [hd, List.tail_cons]
          exact ha0

/-- C4: for every id whose registry entry exists but whose backing file
is absent when retrieval attempts to stream it, GET /api/documents/:id
reports 404 to the caller and removes the stale registry entry, so a
subsequent lookup of the same id finds no entry. -/
theorem C4_fetch_missing_file_self_heals (st : ServerState) (id : String) (e : DocEntry)
    (hget : mapGet st.documents id = some e)
    (habs : ¬ e.path ∈ st.fs.files) :
    getDocument st id =
      ({ status := 404, body := "Document not found or has expired." },
       { st with documents := mapDelete st.documents id }) ∧
    mapGet (getDocument st id).2.documents id = none := by
  have h1 : getDocument st id =
      ({ status := 404, body := "Document not found or has expired." },
       { st with documents := mapDelete st.documents id }) := by
    simp [getDocument, hget, habs]
  refine ⟨h1, ?_⟩
  rw [h1]
  exact mapGet_mapDelete_self st.documents id

/-- C4 witness: in the sample state whose upload directory is empty, the
entry for "a" exists, streaming hits ENOENT, and the stale entry is
removed. -/
theorem C4_fetch_missing_file_self_heals_witness :
    mapGet (getDocument (sampleState [] []) "a").2.documents "a" = none :=
  (C4_fetch_missing_file_self_heals (sampleState [] []) "a" sampleEntry
    (by decide) (by decide)).2

/-- C5: when the scheduled eviction for an id fires, the registry entry
is removed no matter how the backing-file deletion turns out (success,
ENOENT, or any other failure): the callback swallows every unlink error,
never throws, and never re-inserts the entry, so after firing the
registry no longer contains the id. -/
theorem C5_eviction_fire_removes_entry (st : ServerState) (h : Nat) (id p : String)
    (hpend : findTimer st.pendingTimers h = some (id, p)) :
    (fireTimer st h).documents = mapDelete st.documents id ∧
    mapGet (fireTimer st h).documents id = none := by
  have h1 : (fireTimer st h).documents = mapDelete st.documents id := by
    simp [fireTimer, hpend, evictionCallback]
  refine ⟨h1, ?_⟩
  rw [h1]
  exact mapGet_mapDelete_self st.documents id

/-- C5 witness: firing the pending timer 0 of the sample state removes
the entry for "a". -/
theorem C5_eviction_fire_removes_entry_witness :
    mapGet (fireTimer (sampleState ["uploads/aaaa.pdf"] []) 0).documents "a" = none :=
  (C5_eviction_fire_removes_entry (sampleState ["uploads/aaaa.pdf"] []) 0 "a"
    "uploads/aaaa.pdf" (by decide)).2

/-- C9: a POST /api/upload request whose multipart body contains no
"file" field is answered with status 400 and an error message, and the
server state — in particular the registry — is completely unchanged. -/
theorem C9_upload_without_file_rejected (cfg : Config) (st : ServerState)
    (gid : Option String) (fallbackId : String) :
    uploadHandler cfg st { file := none, generatedDocumentId := gid } fallbackId =
      ({ status := 400, body := "No file uploaded" }, st) := rfl

/-- C10: for every id with a live registry entry whose backing file is
already absent, an explicit release still succeeds: the entry is removed,
the ENOENT unlink failure is treated as success, removeDocument returns
true, and DELETE /api/documents/:id responds 204. -/
theorem C10_release_with_absent_file_succeeds (st : ServerState) (id : String) (e : DocEntry)
    (hget : mapGet st.documents id = some e)
    (habs : ¬ e.path ∈ st.fs.files) :
    (removeDocument st id).1 = .ok true ∧
    mapGet (removeDocument st id).2.documents id = none ∧
    (deleteHandler st id).1 = { status := 204, body := "" } := by
  have key : removeDocument st id =
      (.ok true,
       { st with
           pendingTimers := clearTimeout st.pendingTimers e.timeout,
           documents := mapDelete st.documents id }) := by
    simp [removeDocument, hget, unlink, habs]
  refine ⟨by rw [key], ?_, ?_⟩
  · rw [key]
    exact mapGet_mapDelete_self st.documents id
  · simp [deleteHandler, key]

/-- C10 witness: releasing "a" in the sample state with an empty upload
directory responds 204. -/
theorem C10_release_with_absent_file_succeeds_witness :
    (deleteHandler (sampleState [] []) "a").1 = { status := 204, body := "" } :=
  (C10_release_with_absent_file_succeeds (sampleState [] []) "a" sampleEntry
    (by decide) (by decide)).2.2

/-- C6: an explicit release of a live entry (whose unlink does not fail
with a non-ENOENT error) returns true, removes the entry, cancels the
pending eviction handle; a repeated release returns false without error
and changes nothing; a fetch after the release answers 404; and a natural
eviction firing for the cancelled handle is a no-op. -/
theorem C6_release_idempotent (st : ServerState) (id : String) (e : DocEntry)
    (hget : mapGet st.documents id = some e)
    (hok : ¬ e.path ∈ st.fs.troubled) :
    (removeDocument st id).1 = .ok true ∧
    mapGet (removeDocument st id).2.documents id = none ∧
    findTimer (removeDocument st id).2.pendingTimers e.timeout = none ∧
    removeDocument (removeDocument st id).2 id = (.ok false, (removeDocument st id).2) ∧
    (getDocument (removeDocument st id).2 id).1.status = 404 ∧
    fireTimer (removeDocument st id).2 e.timeout = (removeDocument st id).2 := by
  have key : removeDocument st id =
      (.ok true,
       { st with
           pendingTimers := clearTimeout st.pendingTimers e.timeout,
           documents := mapDelete st.documents id,
           fs := (unlink e.path st.fs).2 }) := by
    by_cases hf : e.path ∈ st.fs.files
    · simp [removeDocument, hget, unlink, hf, hok]
    · simp [removeDocument, hget, unlink, hf]
  refine ⟨by rw [key], ?_, ?_, ?_, ?_, ?_⟩
  · rw [key]
    exact mapGet_mapDelete_self st.documents id
  · rw [key]
    exact findTimer_clearTimeout st.pendingTimers e.timeout
  · rw [key]
    simp [removeDocument, mapGet_mapDelete_self]
  · rw [key]
    simp [getDocument, mapGet_mapDelete_self]
  · rw [key]
    simp [fireTimer, findTimer_clearTimeout]

/-- C6 witness: releasing "a" in the sample state (backing file present
and deletable) returns true. -/
theorem C6_release_idempotent_witness :
    (removeDocument (sampleState ["uploads/aaaa.pdf"] []) "a").1 = .ok true :=
  (C6_release_idempotent (sampleState ["uploads/aaaa.pdf"] []) "a" sampleEntry
    (by decide) (by decide)).1

/-- C7: expiresAt is computed at ingestion as exactly the ingestion time
plus the configured TTL and is what registerDocument stores and returns;
and retrieval is read-only with respect to the registry entries it keeps:
every entry present after a GET is identical (expiresAt included) to the
entry before, so fetching never extends or otherwise changes expiry. -/
theorem C7_expiry_fixed_at_ingestion :
    (∀ (cfg : Config) (st : ServerState) (id : String) (f : FileInfo),
      (registerDocument cfg st id f).2 = st.now + documentTtlMs cfg ∧
      ∃ e, mapGet (registerDocument cfg st id f).1.documents id = some e ∧
        e.expiresAt = st.now + documentTtlMs cfg) ∧
    (∀ (st : ServerState) (rid j : String) (e : DocEntry),
      mapGet (getDocument st rid).2.documents j = some e →
      mapGet st.documents j = some e) := by
  constructor
  · intro cfg st id f
    exact ⟨rfl, _, mapGet_mapSet_self st.documents id _, rfl⟩
  · intro st rid j e h
    rcases hget : mapGet st.documents rid with _ | entry
    · simpa [getDocument, hget] using h
    · by_cases hf : entry.path ∈ st.fs.files
      · by_cases ht : entry.path ∈ st.fs.troubled
        · simpa [getDocument, hget, hf, ht] using h
        · simpa [getDocument, hget, hf, ht] using h
      · have h2 : mapGet (mapDelete st.documents rid) j = some e := by
          simpa [getDocument, hget, hf] using h
        by_cases hj : j = rid
        · subst hj
          rw [mapGet_mapDelete_self] at h2
          exact absurd h2 (by simp)
        · rw [mapGet_mapDelete_ne st.documents rid j hj] at h2
          exact h2

/-- C7 witness: registering the sample file at time 0 with the default
configuration yields expiresAt 0 + 30 * 60 * 1000; and a fetch of a
missing id leaves the entry of "a" untouched. -/
theorem C7_expiry_fixed_at_ingestion_witness :
    ((registerDocument sampleConfig (sampleState [] []) "b" sampleFile).2 =
      (sampleState [] []).now + documentTtlMs sampleConfig) ∧
    mapGet (sampleState [] []).documents "a" = some sampleEntry :=
  ⟨(C7_expiry_fixed_at_ingestion.1 sampleConfig (sampleState [] []) "b" sampleFile).1,
   C7_expiry_fixed_at_ingestion.2 (sampleState [] []) "zzz" "a" sampleEntry (by decide)⟩

/-- C8: when the UPLOAD_LIMIT_MB or DOCUMENT_TTL_MINUTES environment
variable is unset, non-numeric (NaN after Number conversion), infinite,
zero, or negative, the resolved configuration falls back to 25 MB and 30
minutes respectively; a finite strictly positive value overrides the
default. -/
theorem C8_config_defaults (raw : Option JSNum) :
    ((raw = none ∨ raw = some .nan ∨ raw = some .posInf ∨ raw = some .negInf ∨
      ∃ q : Rat, raw = some (.finite q) ∧ q ≤ 0) →
      uploadLimitMbOf raw = 25 ∧ documentTtlMinutesOf raw = 30) ∧
    (∀ q : Rat, 0 < q → raw = some (.finite q) →
      uploadLimitMbOf raw = q ∧ documentTtlMinutesOf raw = q) := by
  constructor
  · rintro (rfl | rfl | rfl | rfl | ⟨q, rfl, hq⟩)
    · exact ⟨rfl, rfl⟩
    · exact ⟨rfl, rfl⟩
    · exact ⟨rfl, rfl⟩
    · exact ⟨rfl, rfl⟩
    · constructor <;>
        simp [uploadLimitMbOf, documentTtlMinutesOf, resolveConfigValue, not_lt.mpr hq]
  · rintro q hq rfl
    constructor <;>
      simp [uploadLimitMbOf, documentTtlMinutesOf, resolveConfigValue, hq]

/-- C8 witness: a non-numeric setting (NaN) falls back to both defaults,
and the value 7 overrides them. -/
theorem C8_config_defaults_witness :
    (uploadLimitMbOf (some .nan) = 25 ∧ documentTtlMinutesOf (some .nan) = 30) ∧
    (uploadLimitMbOf (some (.finite 7)) = 7 ∧ documentTtlMinutesOf (some (.finite 7)) = 7) :=
  ⟨(C8_config_defaults (some .nan)).1 (Or.inr (Or.inl rfl)),
   (C8_config_defaults (some (.finite 7))).2 7 (by norm_num) rfl⟩

/-- C1 counterexample: with a live entry for "a" whose backing file is
present but whose unlink fails with a non-ENOENT error, removeDocument
does surface the failure, but the registry is NOT left unchanged: the
entry was deleted before the unlink, so a retried release can no longer
find it — contradicting the claim that the registry state is left
unchanged by the failed operation. -/
theorem C1_registry_changed_counterexample :
    mapGet (sampleState ["uploads/aaaa.pdf"] ["uploads/aaaa.pdf"]).documents "a" =
      some sampleEntry ∧
    (removeDocument (sampleState ["uploads/aaaa.pdf"] ["uploads/aaaa.pdf"]) "a").1 =
      Except.error () ∧
    ¬ (removeDocument (sampleState ["uploads/aaaa.pdf"] ["uploads/aaaa.pdf"]) "a").2.documents =
      (sampleState ["uploads/aaaa.pdf"] ["uploads/aaaa.pdf"]).documents ∧
    mapGet ((removeDocument (sampleState ["uploads/aaaa.pdf"] ["uploads/aaaa.pdf"]) "a").2).documents
      "a" = none := by
  refine ⟨rfl, rfl, by decide, rfl⟩

/-- C1 amended: when an explicit release finds a registry entry but the
backing-file deletion fails for a reason other than the file being
absent, the failure is surfaced to the caller exactly once (the DELETE
handler answers 500), but the registry entry and its eviction timer were
already removed before the deletion attempt, so the failed operation does
change the registry and a retried release finds no entry and reports 404
instead of failing again. -/
theorem C1_release_failure_surfaced_entry_gone (st : ServerState) (id : String) (e : DocEntry)
    (hget : mapGet st.documents id = some e)
    (hfile : e.path ∈ st.fs.files)
    (hbad : e.path ∈ st.fs.troubled) :
    (removeDocument st id).1 = .error () ∧
    mapGet (removeDocument st id).2.documents id = none ∧
    (deleteHandler st id).1 = { status := 500, body := "Unable to delete document." } ∧
    removeDocument (removeDocument st id).2 id = (.ok false, (removeDocument st id).2) ∧
    (deleteHandler (removeDocument st id).2 id).1 =
      { status := 404, body := "Document not found or already removed." } := by
  have key : removeDocument st id =
      (.error (),
       { st with
           pendingTimers := clearTimeout st.pendingTimers e.timeout,
           documents := mapDelete st.documents id }) := by
    simp [removeDocument, hget, unlink, hfile, hbad]
  refine ⟨by rw [key], ?_, ?_, ?_, ?_⟩
  · rw [key]
    exact mapGet_mapDelete_self st.documents id
  · simp [deleteHandler, key]
  · rw [key]
    simp [removeDocument, mapGet_mapDelete_self]
  · rw [key]
    simp [deleteHandler, removeDocument, mapGet_mapDelete_self]

/-- C1 witness: in the sample state whose backing file is troubled, the
failing release reports 500 once and the retry reports 404. -/
theorem C1_release_failure_surfaced_entry_gone_witness :
    (deleteHandler (sampleState ["uploads/aaaa.pdf"] ["uploads/aaaa.pdf"]) "a").1 =
      { status := 500, body := "Unable to delete document." } :=
  (C1_release_failure_surfaced_entry_gone
    (sampleState ["uploads/aaaa.pdf"] ["uploads/aaaa.pdf"]) "a" sampleEntry
    (by decide) (by decide) (by decide)).2.2.1

/-- C2 counterexample: registering a second document under the already
live id "a" does not fail — registerDocument has no duplicate check and
no failure path — and it silently replaces the existing entry, changing
the registry binding of "a", contradicting the claimed DuplicateIdentifier
rejection. -/
theorem C2_register_replaces_counterexample :
    mapGet (sampleState [] []).documents "a" = some sampleEntry ∧
    ¬ mapGet ((registerDocument sampleConfig (sampleState [] []) "a" sampleFile).1).documents "a" =
      some sampleEntry ∧
    ¬ (registerDocument sampleConfig (sampleState [] []) "a" sampleFile).1.documents =
      (sampleState [] []).documents := by
  refine ⟨rfl, by decide, by decide⟩

/-- C2 amended: registerDocument performs no duplicate check: it always
succeeds, and for an id that already has a live entry the JS Map.set
semantics silently replaces that entry with the new document. The
at-most-one-live-entry-per-id invariant is still preserved, and entries
under all other ids are untouched. -/
theorem C2_register_silently_replaces (cfg : Config) (st : ServerState) (id : String)
    (f : FileInfo) (hnodup : (st.documents.map Prod.fst).Nodup) :
    (∃ e, mapGet (registerDocument cfg st id f).1.documents id = some e ∧
      e.path = f.path ∧ e.originalName = f.originalname) ∧
    ((registerDocument cfg st id f).1.documents.map Prod.fst).Nodup ∧
    (∀ j, ¬ j = id →
      mapGet (registerDocument cfg st id f).1.documents j = mapGet st.documents j) := by
  refine ⟨⟨_, mapGet_mapSet_self st.documents id _, rfl, rfl⟩,
    nodup_keys_mapSet id _ hnodup, ?_⟩
  intro j hj
  exact mapGet_mapSet_ne st.documents id j _ hj

/-- C2 witness: re-registering id "a" in the sample state stores the new
document under "a" and leaves no duplicate key. -/
theorem C2_register_silently_replaces_witness :
    ∃ e, mapGet ((registerDocument sampleConfig (sampleState [] []) "a" sampleFile).1).documents
      "a" = some e ∧ e.path = sampleFile.path ∧ e.originalName = sampleFile.originalname :=
  (C2_register_silently_replaces sampleConfig (sampleState [] []) "a" sampleFile (by decide)).1

/-- C3 counterexample: the storage filename is not derived solely from
the generated identifier: two uploads with the same fresh id but
different user-supplied original filenames are stored under different
names, because the extension is taken from the user-supplied name. -/
theorem C3_extension_from_user_counterexample :
    uploadFilename "11111111-2222" "notes.txt" = "11111111-2222.txt" ∧
    uploadFilename "11111111-2222" "notes.pdf" = "11111111-2222.pdf" ∧
    ¬ uploadFilename "11111111-2222" "notes.txt" =
      uploadFilename "11111111-2222" "notes.pdf" := by
  refine ⟨rfl, rfl, by decide⟩

/-- C3 amended: the storage filename is the freshly generated identifier
followed by an extension that is the lowercased Node path.extname of the
user-supplied original filename, defaulting to ".pdf" when empty; the
user-supplied name influences only this extension, which always starts
with a dot and contains no path separator and no dot beyond its leading
one, so it cannot name another directory or traverse upward. -/
theorem C3_filename_id_plus_confined_ext (id name : String) :
    uploadFilename id name = id ++ uploadExt name ∧
    (uploadExt name).data.head? = some '.' ∧
    (∀ c ∈ (uploadExt name).data, ¬ c = '/') ∧
    (∀ c ∈ (uploadExt name).data.tail, ¬ c = '.') :=
  ⟨rfl, uploadExt_spec name⟩

/-- C3 witness: for an uppercase user extension the stored name is the id
plus the lowercased extension, and a sample character of that extension
is not a path separator. -/
theorem C3_filename_id_plus_confined_ext_witness :
    uploadFilename "abc" "Evil Name.PDF" = "abc" ++ uploadExt "Evil Name.PDF" ∧
    ¬ 'p' = '/' :=
  ⟨(C3_filename_id_plus_confined_ext "abc" "Evil Name.PDF").1,
   (C3_filename_id_plus_confined_ext "abc" "Evil Name.PDF").2.2.1 'p' (by decide)⟩

end DocStore
